import Mathlib

/-!
Verification of the migration-scripts repository (two jscodeshift codemods:
`src/migrate-sinon-to-node-test.ts`, which rewrites sinon sandbox stubs into
`node:test` mocks, and the should/mocha migration transforms in
`src/unnamed/part_000`).

The relevant algorithms are shallowly embedded as executable Lean functions,
translated from the TypeScript source.  Runtime JavaScript values that the
synthesized mock implementations compare with strict equality are modelled by
`JVal` (the transforms only ever compare primitive literals, so structural
equality coincides with JavaScript strict equality on this fragment).
-/

/-- Primitive JavaScript runtime values, as compared by the strict-equality
checks that `mockImpl` (migrate-sinon-to-node-test.ts, lines 329-375) emits. -/
inductive JVal where
  | num (n : Int)
  | str (s : String)
  | boolean (b : Bool)
  | undef
  | nullV
deriving DecidableEq, Repr

/-- Result expression of one configuration entry.  `returns(a)` stores the
bare value `a`; `resolves(as)` stores the synthesized call
`Promise.resolve(as)` (migrate-sinon-to-node-test.ts, lines 242-252). -/
inductive RVal where
  | val (v : JVal)
  | promise (args : List JVal)
deriving DecidableEq, Repr

/-- One method call of a stub-configuration chain, e.g. `withArgs(7)` is
`⟨"withArgs", [.num 7]⟩` (the `methodName`/`callPath` pairs collected into
`methodCalls`, migrate-sinon-to-node-test.ts, lines 224-233). -/
structure MCall where
  name : String
  args : List JVal
deriving DecidableEq, Repr

/-- The `StubReplacement` record of migrate-sinon-to-node-test.ts (lines 3-6):
optional argument matchers (`withArgs`) and an optional result. -/
structure StubReplacement where
  args : Option (List JVal) := none
  returnValue : Option RVal := none
deriving DecidableEq, Repr

/-- An entry yields an unconditional `return` when it has no `args` field or
an empty matcher list (migrate-sinon-to-node-test.ts, line 334). -/
def entryUncond (c : StubReplacement) : Bool :=
  match c.args with
  | none => true
  | some ms => ms.isEmpty

/-- An entry counts as having matchers for the fallback decision exactly when
`chain.args && chain.args.length > 0` (migrate-sinon-to-node-test.ts,
line 371). -/
def entryHasMatchers (c : StubReplacement) : Bool :=
  !entryUncond c

/-- The value returned for an entry: `chain.returnValue || undefined`
(migrate-sinon-to-node-test.ts, lines 335 and 366). -/
def retD (c : StubReplacement) : RVal :=
  c.returnValue.getD (.val .undef)

/-- The conjunction `args[0] === m0 && args[1] === m1 && ...` built by the
`reduce` over `chain.args` (migrate-sinon-to-node-test.ts, lines 339-364).
Reading `args[i]` past the end of the runtime argument list yields
`undefined` in JavaScript, hence `getD i .undef`. -/
def condArgsMatch : List JVal → Nat → List JVal → Bool
  | [], _, _ => true
  | m :: ms, i, args => (args.getD i .undef = m) && condArgsMatch ms (i + 1) args

/-- The full guard of a conditional branch: the emitted code prepends an
`args.length > 0` check to the positional comparisons
(migrate-sinon-to-node-test.ts, lines 350-362). -/
def condHolds (ms args : List JVal) : Bool :=
  decide (0 < args.length) && condArgsMatch ms 0 args

/-- One statement of the synthesized replacement-function body: either an
`if (cond) { return r; }` branch or a bare `return r;`. -/
inductive MockStmt where
  | condReturn (matchers : List JVal) (ret : RVal)
  | uncondReturn (ret : RVal)
deriving DecidableEq, Repr

/-- The statement synthesized for one configuration entry
(migrate-sinon-to-node-test.ts, lines 332-369). -/
def emitStmt (c : StubReplacement) : MockStmt :=
  if entryUncond c then .uncondReturn (retD c)
  else .condReturn (c.args.getD []) (retD c)

/-- The full body of the synthesized replacement function: one statement per
entry, in entry order, followed by a `return undefined;` fallback exactly when
some entry has a nonempty matcher list (migrate-sinon-to-node-test.ts,
lines 331-374). -/
def mockBody (chains : List StubReplacement) : List MockStmt :=
  chains.map emitStmt ++
    (if chains.any entryHasMatchers then [.uncondReturn (.val .undef)] else [])

/-- Whether `mockBody` appended the explicit `return undefined;` fallback,
observed as the body being one statement longer than the entry list. -/
def fallbackAppended (chains : List StubReplacement) : Bool :=
  decide ((mockBody chains).length = chains.length + 1)

/-- Execution of the synthesized body on a runtime argument list: statements
run in order, the first executed `return` decides the result, and a body that
falls off the end returns `undefined` (JavaScript function semantics). -/
def runMock : List MockStmt → List JVal → RVal
  | [], _ => .val .undef
  | .uncondReturn r :: _, _ => r
  | .condReturn ms r :: rest, args =>
      if condHolds ms args then r else runMock rest args

/-- The observable behaviour of the replacement function synthesized for a
list of configuration entries. -/
def mockImplEval (chains : List StubReplacement) (args : List JVal) : RVal :=
  runMock (mockBody chains) args

/-- Whether an entry would take control on the given runtime arguments:
matcherless entries return unconditionally, entries with matchers fire when
their guard holds. -/
def entryFires (c : StubReplacement) (args : List JVal) : Bool :=
  if entryUncond c then true else condHolds (c.args.getD []) args

theorem runMock_skip_nonfiring (pre : List StubReplacement) (tail : List MockStmt)
    (args : List JVal) (h : ∀ e ∈ pre, entryFires e args = false) :
    runMock (pre.map emitStmt ++ tail) args = runMock tail args := by
  induction pre with
  | nil => rfl
  | cons e rest ih =>
      have he : entryFires e args = false := h e (List.mem_cons_self e rest)
      have hrest : ∀ x ∈ rest, entryFires x args = false :=
        fun x hx => h x (List.mem_cons_of_mem e hx)
      have huncond : entryUncond e = false := by
        by_contra hc
        simp only [Bool.not_eq_false] at hc
        simp [entryFires, hc] at he
      have hcond : condHolds (e.args.getD []) args = false := by
        simpa [entryFires, huncond] using he
      simp [emitStmt, huncond, runMock, hcond, ih hrest]

/-- Claim C1: for configuration entries in source order, the synthesized
replacement tests the entries in that same order, so when every entry before
`c` fails to fire and `c` fires, the call returns the result of `c` no matter
what entries (including ones whose matchers would also match) come after it. -/
theorem mock_first_match_wins (pre post : List StubReplacement)
    (c : StubReplacement) (args : List JVal)
    (h₁ : ∀ e ∈ pre, entryFires e args = false)
    (h₂ : entryFires c args = true) :
    mockImplEval (pre ++ c :: post) args = retD c := by
  unfold mockImplEval mockBody
  rw [List.map_append, List.append_assoc]
  rw [runMock_skip_nonfiring pre _ args h₁]
  simp only [List.map_cons, List.cons_append]
  by_cases hu : entryUncond c = true
  · simp [emitStmt, hu, runMock]
  · have hu' : entryUncond c = false := by simpa using hu
    have hc : condHolds (c.args.getD []) args = true := by
      simpa [entryFires, hu'] using h₂
    simp [emitStmt, hu', runMock, hc]

/-- Witness for `mock_first_match_wins`: the middle entry matches argument
`2` and returns `20`; the later entry would also match `2` but is never
consulted. -/
theorem mock_first_match_wins_witness :
    mockImplEval
      [⟨some [.num 1], some (.val (.num 10))⟩,
       ⟨some [.num 2], some (.val (.num 20))⟩,
       ⟨some [.num 2], some (.val (.num 30))⟩] [.num 2] = .val (.num 20) :=
  mock_first_match_wins
    [⟨some [.num 1], some (.val (.num 10))⟩]
    [⟨some [.num 2], some (.val (.num 30))⟩]
    ⟨some [.num 2], some (.val (.num 20))⟩
    [.num 2]
    (by decide) (by decide)

theorem mockBody_length (chains : List StubReplacement) :
    (mockBody chains).length =
      chains.length + (if chains.any entryHasMatchers then 1 else 0) := by
  unfold mockBody
  by_cases h : chains.any entryHasMatchers <;> simp [h]

/-- Counterexample to claim C2: in a configuration where the first entry has a
matcher and the second has none, not every entry has matchers, yet the code
still appends the `return undefined;` fallback (it is gated on *some* entry
having matchers, migrate-sinon-to-node-test.ts line 371), so "fallback iff
every entry had matchers" is false. -/
theorem fallback_not_iff_all_matchers :
    fallbackAppended
        [⟨some [.num 1], some (.val (.num 10))⟩, ⟨none, some (.val (.num 20))⟩] = true ∧
      List.all
        [(⟨some [.num 1], some (.val (.num 10))⟩ : StubReplacement),
         ⟨none, some (.val (.num 20))⟩] entryHasMatchers = false := by
  constructor <;> decide

/-- Claim C2 as amended: an unconditional return is emitted for every entry
without argument matchers (not just at most one), and the explicit
undefined-valued fallback is appended if and only if at least one entry has a
nonempty matcher list. -/
theorem fallback_iff_some_matchers (chains : List StubReplacement) :
    fallbackAppended chains = chains.any entryHasMatchers ∧
      (chains.filter fun c => !entryHasMatchers c).map emitStmt =
        (chains.filter fun c => !entryHasMatchers c).map
          (fun c => .uncondReturn (retD c)) := by
  constructor
  · unfold fallbackAppended
    rw [mockBody_length]
    by_cases h : chains.any entryHasMatchers <;> simp [h]
  · apply List.map_congr_left
    intro c hc
    have : entryHasMatchers c = false := by
      have := List.of_mem_filter hc
      simpa using this
    have hu : entryUncond c = true := by
      simpa [entryHasMatchers] using this
    simp [emitStmt, hu]

/-- Chain-terminating steps: a group ends at `returns` or `resolves`
(migrate-sinon-to-node-test.ts, line 229). -/
def isTermStep (c : MCall) : Bool :=
  c.name = "returns" || c.name = "resolves"

/-- The grouping loop over `methodCalls` (migrate-sinon-to-node-test.ts,
lines 221-233): calls accumulate into the current chain, a `returns` or
`resolves` closes the chain, and a trailing incomplete chain is dropped. -/
def splitGroups : List MCall → List MCall → List (List MCall)
  | [], _ => []
  | c :: rest, cur =>
      if isTermStep c then (cur ++ [c]) :: splitGroups rest []
      else splitGroups rest (cur ++ [c])

/-- One step of building a `StubReplacement` from a chain group
(migrate-sinon-to-node-test.ts, lines 239-253): `withArgs` stores the call
arguments as matchers, `returns` stores its first argument (JavaScript
`arguments[0]` is `undefined` when absent), `resolves` stores
`Promise.resolve(...)` applied to all its arguments; other step names are
ignored. -/
def applyStep (acc : StubReplacement) (c : MCall) : StubReplacement :=
  if c.name = "withArgs" then { acc with args := some c.args }
  else if c.name = "returns" then
    { acc with returnValue := some (.val (c.args.headD .undef)) }
  else if c.name = "resolves" then
    { acc with returnValue := some (.promise c.args) }
  else acc

/-- Build the configuration entry of one chain group
(migrate-sinon-to-node-test.ts, lines 236-253). -/
def buildChain (group : List MCall) : StubReplacement :=
  group.foldl applyStep {}

/-- The full aggregation from collected method calls to configuration
entries, keeping only entries with at least one populated field
(`Object.keys(chain).length > 0`, migrate-sinon-to-node-test.ts,
lines 255-257). -/
def buildChains (calls : List MCall) : List StubReplacement :=
  ((splitGroups calls []).map buildChain).filter
    fun c => c.args.isSome || c.returnValue.isSome

/-- Claim C9: any chain group whose terminal step is `resolves(v)` produces a
configuration entry whose result expression is `Promise.resolve(v)`, not the
bare value. -/
theorem resolves_entry_is_promise (calls group : List MCall) (as : List JVal)
    (hmem : group ∈ splitGroups calls [])
    (hlast : group.getLast? = some ⟨"resolves", as⟩) :
    (buildChain group).returnValue = some (.promise as) := by
  have hne : group ≠ [] := by
    intro h
    rw [h] at hlast
    simp at hlast
  obtain ⟨init, last, hsplit⟩ :
      ∃ init last, group = init ++ [last] := by
    refine ⟨group.dropLast, group.getLast hne, ?_⟩
    exact (List.dropLast_append_getLast hne).symm
  have hlastv : last = ⟨"resolves", as⟩ := by
    rw [hsplit] at hlast
    simpa using hlast
  rw [hsplit, hlastv]
  unfold buildChain
  rw [List.foldl_append]
  simp [applyStep]

/-- Witness for `resolves_entry_is_promise` on the collected call list
`stub.withArgs(3).resolves(4)`. -/
theorem resolves_entry_is_promise_witness :
    (buildChain [⟨"withArgs", [.num 3]⟩, ⟨"resolves", [.num 4]⟩]).returnValue =
      some (.promise [.num 4]) :=
  resolves_entry_is_promise
    [⟨"withArgs", [.num 3]⟩, ⟨"resolves", [.num 4]⟩]
    [⟨"withArgs", [.num 3]⟩, ⟨"resolves", [.num 4]⟩]
    [.num 4] (by decide) (by decide)

/-- The grouping key of one stub site: the template literal
`${className}.${methodName}.${testName}` (migrate-sinon-to-node-test.ts,
lines 131 and 319). -/
def mkKey (className methodName testName : String) : String :=
  className ++ "." ++ methodName ++ "." ++ testName

/-- A reference chain found for a stub variable, tagged with the name of the
`it`/`test` block enclosing it (`chainTestName`, computed by walking parents
in migrate-sinon-to-node-test.ts, lines 172-182; the empty string for module
scope). -/
structure RefChain where
  tag : String
  calls : List MCall
deriving DecidableEq, Repr

/-- The function processCallChain applied to every reference (migrate-sinon-to-node-test.ts,
lines 167-214): a chain contributes its calls to `methodCalls` only when its
enclosing test name equals the test name of the stub being processed. -/
def collectMethodCalls (testName : String) (refs : List RefChain) : List MCall :=
  refs.flatMap fun r => if r.tag = testName then r.calls else []

theorem string_append_left_cancel (s t₁ t₂ : String) (h : s ++ t₁ = s ++ t₂) :
    t₁ = t₂ := by
  cases s with
  | mk ds =>
    cases t₁ with
    | mk d1 =>
      cases t₂ with
      | mk d2 =>
        simp only [HAppend.hAppend, Append.append, String.append] at h
        injection h with h'
        exact congrArg String.mk (List.append_cancel_left h')

/-- Claim C4: stub configurations with the same subject and member name but
different enclosing test names never merge.  First, their grouping keys are
distinct strings; second, the chain-collection step only gathers calls from
reference chains whose enclosing test name equals that of the stub being
processed, so a chain in another test contributes nothing. -/
theorem keys_isolate_test_cases :
    (∀ c m t₁ t₂ : String, t₁ ≠ t₂ → mkKey c m t₁ ≠ mkKey c m t₂) ∧
      (∀ (t : String) (refs : List RefChain),
        collectMethodCalls t refs =
          (refs.filter fun r => r.tag = t).flatMap RefChain.calls) := by
  constructor
  · intro c m t₁ t₂ h he
    apply h
    unfold mkKey at he
    exact string_append_left_cancel (c ++ "." ++ m ++ ".") t₁ t₂
      (by simpa [String.append_assoc] using he)
  · intro t refs
    induction refs with
    | nil => rfl
    | cons r rest ih =>
        by_cases h : r.tag = t <;>
          simp [collectMethodCalls, List.flatMap_cons, h, List.filter_cons] at ih ⊢ <;>
          exact ih

/-- Witness for `keys_isolate_test_cases`: equal subject and member, distinct
test names, distinct keys; and a reference chain tagged with another test
name contributes no calls. -/
theorem keys_isolate_test_cases_witness :
    mkKey "MyClass" "doWork" "test one" ≠ mkKey "MyClass" "doWork" "test two" ∧
      collectMethodCalls "test one"
          [⟨"test two", [⟨"returns", [.num 1]⟩]⟩] = [] :=
  ⟨keys_isolate_test_cases.1 "MyClass" "doWork" "test one" "test two" (by decide),
   by
     have h := keys_isolate_test_cases.2 "test one"
       [⟨"test two", [⟨"returns", [.num 1]⟩]⟩]
     simpa using h⟩

/-- Top-level statements of a single-test-scope fragment handled by the stub
rewrite (migrate-sinon-to-node-test.ts, lines 266-451): the stub variable
declaration `const v = sandBox.stub(Obj.x, "m")` (with its names already
resolved, the raw extraction is modelled separately below), an expression
statement that chains configuration calls on the stub variable, the
synthesized `mock.method(Obj.prototype as any, "m", impl)` statement, and
unrelated statements. -/
inductive SStmt where
  | stubDecl (varName objName methodName : String)
  | chainStmt (varName : String) (calls : List MCall)
  | mockStmt (objName methodName : String) (chains : List StubReplacement)
  | otherStmt (tag : Nat)
deriving DecidableEq, Repr

/-- The per-variable reference scan (migrate-sinon-to-node-test.ts,
lines 150-214, specialised to chains within the same test scope): every
statement chaining calls on the stub variable contributes its calls, in
source order. -/
def collectCalls (v : String) (prog : List SStmt) : List MCall :=
  prog.flatMap fun s =>
    match s with
    | .chainStmt w calls => if w = v then calls else []
    | _ => []

/-- The removal filter (migrate-sinon-to-node-test.ts, lines 419-426): a
chain statement on the stub variable is deleted when its chain contains a
`withArgs`, `returns` or `resolves` step. -/
def legacyChainStmt (calls : List MCall) : Bool :=
  calls.any fun c =>
    c.name = "withArgs" || c.name = "returns" || c.name = "resolves"

/-- The stub variables declared in the fragment. -/
def stubVarNames (prog : List SStmt) : List String :=
  prog.filterMap fun s =>
    match s with
    | .stubDecl v _ _ => some v
    | _ => none

/-- The stub-rewrite pass (migrate-sinon-to-node-test.ts, lines 266-451) on
such a fragment: the declaration statement is replaced in place by the
synthesized `mock.method` call carrying the aggregated entries, and every
configuration chain statement on a stub variable is removed. -/
def rewriteStub (prog : List SStmt) : List SStmt :=
  prog.flatMap fun s =>
    match s with
    | .stubDecl v o m => [.mockStmt o m (buildChains (collectCalls v prog))]
    | .chainStmt w calls =>
        if w ∈ stubVarNames prog ∧ legacyChainStmt calls then [] else [s]
    | s => [s]

/-- The Example 3 input: `const s = sandBox.stub(Obj.x, "m")` followed by
`s.withArgs(7).returns(1)` and `s.returns(2)` in the same test case. -/
def progC3 : List SStmt :=
  [.stubDecl "s" "Obj" "m",
   .chainStmt "s" [⟨"withArgs", [.num 7]⟩, ⟨"returns", [.num 1]⟩],
   .chainStmt "s" [⟨"returns", [.num 2]⟩]]

/-- The entries aggregated for the Example 3 stub. -/
def chainsC3 : List StubReplacement :=
  buildChains (collectCalls "s" progC3)

/-- Claim C3: the two configuration statements of Example 3 merge into a
single replacement whose synthesized function returns `1` exactly when called
with the matching argument and `2` otherwise, both original configuration
statements are removed, and exactly one statement (the synthesized mock call)
remains at the declaration site. -/
theorem example3_merges_to_single_statement :
    rewriteStub progC3 =
        [.mockStmt "Obj" "m"
          [⟨some [.num 7], some (.val (.num 1))⟩, ⟨none, some (.val (.num 2))⟩]] ∧
      (∀ w : JVal, mockImplEval chainsC3 [w] =
        .val (if w = .num 7 then .num 1 else .num 2)) ∧
      mockImplEval chainsC3 [] = .val (.num 2) := by
  refine ⟨by decide, ?_, by decide⟩
  intro w
  by_cases h : w = .num 7 <;>
    simp [mockImplEval, chainsC3, progC3, collectCalls, buildChains, splitGroups,
      isTermStep, buildChain, applyStep, mockBody, entryHasMatchers, entryUncond,
      emitStmt, retD, runMock, condHolds, condArgsMatch, h]

mutual
/-- Miniature JavaScript expression tree for the chain-shaped nodes the
transforms inspect: identifiers, member accesses with identifier properties,
calls, literals, and TypeScript `as` casts (`TSAsExpression`). -/
inductive Expr where
  | ident (name : String)
  | member (obj : Expr) (prop : String)
  | call (callee : Expr) (args : ExprList)
  | lit (v : JVal)
  | tsAs (e : Expr)
deriving DecidableEq, Repr

/-- Argument lists of calls. -/
inductive ExprList where
  | nil
  | cons (head : Expr) (tail : ExprList)
deriving DecidableEq, Repr
end

/-- The `.equal` rewrite of the first should-migration transform
(src/unnamed/part_000, lines 119-184): `should.equal(x, y)` keeps its
arguments, `x.should.equal(y)` prepends the subject, and
`x.should.not.equal(y)` prepends the subject and negates; the target calls
are the NON-strict `assert.equal` / `assert.notEqual`.  Chains of any other
shape are left unchanged. -/
def equalRule1 (e : Expr) : Expr :=
  match e with
  | .call (.member (.ident "should") "equal") args =>
      .call (.member (.ident "assert") "equal") args
  | .call (.member (.member x "should") "equal") args =>
      .call (.member (.ident "assert") "equal") (.cons x args)
  | .call (.member (.member (.member x "should") "not") "equal") args =>
      .call (.member (.ident "assert") "notEqual") (.cons x args)
  | e => e

/-- The outward-to-inward walk of the second should-migration transform
(src/unnamed/part_000, lines 735-748): stop at the first `should` property
and report its object as the subject, recording whether a `not` property was
crossed on the way. -/
def walkShould : Expr → Bool → Option (Expr × Bool)
  | .member x p, neg =>
      if p = "should" then some (x, neg)
      else walkShould x (neg || decide (p = "not"))
  | _, _ => none

/-- The `.equal` rewrite of the second should-migration transform
(src/unnamed/part_000, lines 696-759): same chain recognition, but the
target calls are the strict `assert.strictEqual` / `assert.notStrictEqual`. -/
def equalRule2 (e : Expr) : Expr :=
  match e with
  | .call (.member (.ident "should") "equal") args =>
      .call (.member (.ident "assert") "strictEqual") args
  | .call (.member (.member o p) "equal") args =>
      match walkShould (.member o p) false with
      | some (x, neg) =>
          .call
            (.member (.ident "assert")
              (if neg then "notStrictEqual" else "strictEqual"))
            (.cons x args)
      | none => e
  | e => e

/-- The Example 1 chain `x.should.equal(5)`. -/
def exC6 : Expr :=
  .call (.member (.member (.ident "x") "should") "equal")
    (.cons (.lit (.num 5)) .nil)

/-- Counterexample to claim C6: the first should-migration transform rewrites
`x.should.equal(5)` to the non-strict `assert.equal(x, 5)`, which is not
`assert.strictEqual(x, 5)`. -/
theorem equal_rule_first_transform_not_strict :
    equalRule1 exC6 =
        .call (.member (.ident "assert") "equal")
          (.cons (.ident "x") (.cons (.lit (.num 5)) .nil)) ∧
      equalRule1 exC6 ≠
        .call (.member (.ident "assert") "strictEqual")
          (.cons (.ident "x") (.cons (.lit (.num 5)) .nil)) := by
  constructor <;> decide

/-- Claim C6 as amended: `x.should.equal(5)` is rewritten to
`assert.strictEqual(x, 5)` by the second should-migration transform, while
the first should-migration transform rewrites it to the non-strict
`assert.equal(x, 5)`. -/
theorem equal_rule_rewrites :
    equalRule2 exC6 =
        .call (.member (.ident "assert") "strictEqual")
          (.cons (.ident "x") (.cons (.lit (.num 5)) .nil)) ∧
      equalRule1 exC6 =
        .call (.member (.ident "assert") "equal")
          (.cons (.ident "x") (.cons (.lit (.num 5)) .nil)) := by
  constructor <;> decide

/-- Class-name extraction of the stub-collection pass
(migrate-sinon-to-node-test.ts, lines 96-97): the first stub argument must be
a member expression whose object is an identifier. -/
def className1 : Expr → Option String
  | .member (.ident n) _ => some n
  | _ => none

/-- Method-name extraction of the stub-collection pass
(migrate-sinon-to-node-test.ts, lines 99-110): string literal, identifier,
`as`-cast of either, or a member expression property; anything else (for
example a call expression) yields no name. -/
def methodName1 : Expr → Option String
  | .lit (.str s) => some s
  | .ident n => some n
  | .tsAs (.lit (.str s)) => some s
  | .tsAs (.ident n) => some n
  | .member _ p => some p
  | _ => none

/-- The collection pass skips a stub call (and logs the warning
`Could not extract class or method name`) exactly when either extraction
fails (migrate-sinon-to-node-test.ts, lines 113-116). -/
def pass1Skips (arg0 arg1 : Expr) : Bool :=
  (className1 arg0).isNone || (methodName1 arg1).isNone

/-- The guard of the stub-REWRITE pass (migrate-sinon-to-node-test.ts,
line 281): it only requires the first argument to have an `object` field,
i.e. to be a member expression, and then replaces the declaration. -/
def pass2Proceeds (arg0 : Expr) : Bool :=
  match arg0 with
  | .member _ _ => true
  | _ => false

/-- The method-name string the rewrite pass bakes into the synthesized
`mock.method` call (migrate-sinon-to-node-test.ts, lines 388-395); for an
unrecognised argument shape it degrades to `args[1].name || ""`, the empty
string. -/
def mockCallMethodLit : Expr → String
  | .tsAs (.lit (.str s)) => s
  | .tsAs (.ident n) => n
  | .lit (.str s) => s
  | .ident n => n
  | _ => ""

/-- Claim C7 evaluated at the failing input `sandBox.stub(Obj.x, f())`: the
collection pass cannot extract a method name, warns, and skips the chain, but
the rewrite pass, whose guard only looks at the first argument, still
replaces the declaration statement with a `mock.method` call whose member
name degrades to the empty string.  The skipped statements of the chain are
therefore NOT left untouched. -/
theorem skipped_chain_still_rewritten :
    pass1Skips (.member (.ident "Obj") "x") (.call (.ident "f") .nil) = true ∧
      pass2Proceeds (.member (.ident "Obj") "x") = true ∧
      mockCallMethodLit (.call (.ident "f") .nil) = "" := by
  refine ⟨by decide, by decide, by decide⟩

mutual
/-- All identifier names occurring in an expression, in traversal order
(the `root.find(j.Identifier)` scan also visits member-access property
identifiers). -/
def exprIdents : Expr → List String
  | .ident n => [n]
  | .lit _ => []
  | .tsAs e => exprIdents e
  | .member o p => exprIdents o ++ [p]
  | .call c args => exprIdents c ++ exprIdentsList args

/-- Identifier names of an argument list. -/
def exprIdentsList : ExprList → List String
  | .nil => []
  | .cons e es => exprIdents e ++ exprIdentsList es
end

mutual
/-- Bottom-up application of a node rewrite to every expression node, the
shape of one `root.find(...).forEach(replaceWith)` pass. -/
def mapExpr (f : Expr → Expr) : Expr → Expr
  | .ident n => f (.ident n)
  | .lit v => f (.lit v)
  | .tsAs e => f (.tsAs (mapExpr f e))
  | .member o p => f (.member (mapExpr f o) p)
  | .call c args => f (.call (mapExpr f c) (mapExprList f args))

/-- Application of mapExpr on argument lists. -/
def mapExprList (f : Expr → Expr) : ExprList → ExprList
  | .nil => .nil
  | .cons e es => .cons (mapExpr f e) (mapExprList f es)
end

/-- Top-level statements of a test file as the import-handling code sees
them: an import declaration with its source string and specifier names, the
`import assert = require("assert")` statement synthesized for files under
`modules/bitgo/` (an ExpressionStatement over an assignment, NOT an
ImportDeclaration — src/unnamed/part_000, second transform, lines 637-644),
a variable declaration, and a bare expression statement. -/
inductive TStmt where
  | importDecl (source : String) (specifiers : List String)
  | importAssertRequire
  | varStmt (name : String) (init : Expr)
  | exprStmt (e : Expr)
deriving DecidableEq, Repr

/-- Whether a statement is an `ImportDeclaration` whose source equals `src`
(the `path.node.source.value === ...` filters). -/
def isImportFrom (src : String) : TStmt → Bool
  | .importDecl s _ => s = src
  | _ => false

/-- Identifier names occurring in a statement, for the
`root.find(j.Identifier)` lifecycle-hook scan.  The synthesized
`import assert = require("assert")` node contains the identifiers
`import assert` and `require` (the module name is a string literal). -/
def stmtIdents : TStmt → List String
  | .importDecl _ specs => specs
  | .importAssertRequire => ["import assert", "require"]
  | .varStmt n e => n :: exprIdents e
  | .exprStmt e => exprIdents e

/-- The sorted specifier list `Array.from(usedTestFunctions).sort()`
(src/unnamed/part_000, second transform, lines 597-620): `describe` and `it`
always, plus any of the four lifecycle hooks found as identifiers.  Listing
the found hooks in the order `after, afterEach, before, beforeEach` followed
by `describe, it` IS the lexicographically sorted order of every such set. -/
def usedTestFns (prog : List TStmt) : List String :=
  (["after", "afterEach", "before", "beforeEach"].filter
      fun n => (prog.flatMap stmtIdents).contains n) ++ ["describe", "it"]

/-- Removal of `should` and `mocha` import declarations
(src/unnamed/part_000, second transform, lines 571-578). -/
def removeLegacyImports2 (prog : List TStmt) : List TStmt :=
  prog.filter fun s => !(isImportFrom "should" s || isImportFrom "mocha" s)

/-- Insert-if-absent of the `node:test` import, placed before the first body
statement (src/unnamed/part_000, second transform, lines 581-621). -/
def ensureNodeTestImport (prog : List TStmt) : List TStmt :=
  if prog.any (isImportFrom "node:test") then prog
  else .importDecl "node:test" (usedTestFns prog) :: prog

/-- Insert-if-absent of the assert import (src/unnamed/part_000, second
transform, lines 623-650): the check accepts any ImportDeclaration from
`node:assert` or `assert`; when absent, files under `modules/bitgo/` receive
the `import assert = require("assert")` expression statement and all other
files a `node:assert` import declaration. -/
def ensureAssertImport (isBitgo : Bool) (prog : List TStmt) : List TStmt :=
  if prog.any (fun s => isImportFrom "node:assert" s || isImportFrom "assert" s)
  then prog
  else
    (if isBitgo then .importAssertRequire
     else .importDecl "node:assert" ["assert"]) :: prog

/-- The import-normalization phase of the second should-migration transform,
in source order: legacy removal, then the `node:test` insert, then the
assert insert (each insert lands before the current first statement). -/
def importPhase2 (isBitgo : Bool) (prog : List TStmt) : List TStmt :=
  ensureAssertImport isBitgo (ensureNodeTestImport (removeLegacyImports2 prog))

/-- The rewrite passes that follow the import phase, applied to the
expressions of the file.  Every such pass in the source only fires on
member/call chains that contain the identifier `should` (or a `should(...)`
call); they are represented here by the `.equal` rule, which subsumes every
pass that the idempotence analysis below could possibly reach, since the
programs involved contain no `should` chains at all. -/
def shouldStage (prog : List TStmt) : List TStmt :=
  prog.map fun s =>
    match s with
    | .varStmt n e => .varStmt n (mapExpr equalRule2 e)
    | .exprStmt e => .exprStmt (mapExpr equalRule2 e)
    | s => s

/-- The second should-migration transform: import normalization followed by
the chain-rewrite passes. -/
def transform2Model (isBitgo : Bool) (prog : List TStmt) : List TStmt :=
  shouldStage (importPhase2 isBitgo prog)

/-- The file `modules/bitgo/.../x.ts` containing only `const a = 1;`. -/
def progC5 : List TStmt := [.varStmt "a" (.lit (.num 1))]

/-- Claim C5 evaluated at the failing input: one application of the second
should-migration transform to a `modules/bitgo/` file with no assert import
prepends `import assert = require("assert")`; because that statement is not
an ImportDeclaration, the assert-import check never sees it and a second
application prepends another copy, so applying the transform twice differs
from applying it once. -/
theorem transform_twice_differs_on_bitgo_file :
    transform2Model true progC5 =
        [.importAssertRequire,
         .importDecl "node:test" ["describe", "it"],
         .varStmt "a" (.lit (.num 1))] ∧
      transform2Model true (transform2Model true progC5) =
        .importAssertRequire :: transform2Model true progC5 ∧
      transform2Model true (transform2Model true progC5) ≠
        transform2Model true progC5 := by
  refine ⟨by decide, by decide, by decide⟩

/-- Adding the `mock` specifier to an existing `node:test` import that lacks
`mocks` (migrate-sinon-to-node-test.ts, lines 44-56); the declaration itself
is reused, never duplicated. -/
def addMockSpecifier : TStmt → TStmt
  | .importDecl src specs =>
      if src = "node:test" then
        if specs.contains "mocks" then .importDecl src specs
        else .importDecl src (specs ++ ["mock"])
      else .importDecl src specs
  | s => s

/-- The import handling of the sinon transform (migrate-sinon-to-node-test.ts,
lines 12-58): only when a `sinon` import is present, remove it and then
either insert one `node:test` import (when none exists) or add a specifier to
each existing one. -/
def sinonImportPhase (prog : List TStmt) : List TStmt :=
  if prog.any (isImportFrom "sinon") then
    if (prog.filter fun s => !isImportFrom "sinon" s).any
        (isImportFrom "node:test") then
      (prog.filter fun s => !isImportFrom "sinon" s).map addMockSpecifier
    else
      .importDecl "node:test" ["mock", "mocks"] ::
        prog.filter fun s => !isImportFrom "sinon" s
  else prog

/-- Number of import declarations from a given source module. -/
def countImportsFrom (src : String) (prog : List TStmt) : Nat :=
  prog.countP (isImportFrom src)

/-- Whether a statement is an import declaration from the assert family
(`node:assert` or `assert`). -/
def isAssertImport (s : TStmt) : Bool :=
  isImportFrom "node:assert" s || isImportFrom "assert" s

/-- Number of import declarations from the assert family. -/
def countAssertImports (prog : List TStmt) : Nat :=
  prog.countP isAssertImport

theorem countP_of_filter_le {α : Type} (p q : α → Bool) (l : List α) :
    (l.filter q).countP p ≤ l.countP p := by
  rw [List.countP_filter]
  exact List.countP_mono_left fun a _ h => by
    simp only [Bool.and_eq_true] at h
    exact h.1

theorem countP_eq_zero_of_not_any {α : Type} {p : α → Bool} {l : List α}
    (h : ¬l.any p = true) : l.countP p = 0 := by
  rw [List.countP_eq_zero]
  intro a ha hp
  exact h (List.any_eq_true.mpr ⟨a, ha, hp⟩)

theorem addMockSpecifier_isImportFrom (src : String) (s : TStmt) :
    isImportFrom src (addMockSpecifier s) = isImportFrom src s := by
  cases s with
  | importDecl s' specs =>
      simp only [addMockSpecifier]
      split
      · split <;> rfl
      · rfl
  | importAssertRequire => rfl
  | varStmt n e => rfl
  | exprStmt e => rfl

theorem ensureNodeTestImport_count_nt (prog : List TStmt) :
    countImportsFrom "node:test" (ensureNodeTestImport prog) ≤
      max (countImportsFrom "node:test" prog) 1 := by
  unfold ensureNodeTestImport countImportsFrom
  by_cases h : prog.any (isImportFrom "node:test")
  · rw [if_pos h]
    exact le_max_left _ _
  · rw [if_neg h, List.countP_cons, countP_eq_zero_of_not_any h]
    simp [isImportFrom]

theorem ensureNodeTestImport_count_assert (prog : List TStmt) :
    countAssertImports (ensureNodeTestImport prog) = countAssertImports prog := by
  unfold ensureNodeTestImport countAssertImports
  by_cases h : prog.any (isImportFrom "node:test")
  · rw [if_pos h]
  · rw [if_neg h, List.countP_cons]
    simp [isAssertImport, isImportFrom]

theorem ensureAssertImport_count_assert (isBitgo : Bool) (prog : List TStmt) :
    countAssertImports (ensureAssertImport isBitgo prog) ≤
      max (countAssertImports prog) 1 := by
  unfold ensureAssertImport countAssertImports
  by_cases h : prog.any fun s =>
      isImportFrom "node:assert" s || isImportFrom "assert" s
  · rw [if_pos h]
    exact le_max_left _ _
  · rw [if_neg h, List.countP_cons]
    have hz : prog.countP isAssertImport = 0 := by
      have := countP_eq_zero_of_not_any h
      simpa [isAssertImport] using this
    rw [hz]
    cases isBitgo <;> simp [isAssertImport, isImportFrom]

theorem ensureAssertImport_count_nt (isBitgo : Bool) (prog : List TStmt) :
    countImportsFrom "node:test" (ensureAssertImport isBitgo prog) =
      countImportsFrom "node:test" prog := by
  unfold ensureAssertImport countImportsFrom
  by_cases h : prog.any fun s =>
      isImportFrom "node:assert" s || isImportFrom "assert" s
  · rw [if_pos h]
  · rw [if_neg h, List.countP_cons]
    cases isBitgo <;> simp [isImportFrom]

/-- Claim C8: the import handling never inserts a duplicate import
declaration.  For the should-migration import phase, the number of
`node:test` import declarations and of assert-family import declarations in
the output never exceeds the larger of the input count and one (an insert
happens only when the count is zero and adds exactly one declaration); the
same holds for the `node:test` declaration in the sinon transform, whose
existing-import branch only edits specifiers of existing declarations. -/
theorem import_normalizer_no_duplicates (isBitgo : Bool) (prog : List TStmt) :
    countImportsFrom "node:test" (importPhase2 isBitgo prog) ≤
        max (countImportsFrom "node:test" prog) 1 ∧
      countAssertImports (importPhase2 isBitgo prog) ≤
        max (countAssertImports prog) 1 ∧
      countImportsFrom "node:test" (sinonImportPhase prog) ≤
        max (countImportsFrom "node:test" prog) 1 := by
  refine ⟨?_, ?_, ?_⟩
  · unfold importPhase2
    rw [ensureAssertImport_count_nt]
    refine le_trans (ensureNodeTestImport_count_nt _) ?_
    have : countImportsFrom "node:test" (removeLegacyImports2 prog) ≤
        countImportsFrom "node:test" prog :=
      countP_of_filter_le _ _ prog
    exact max_le_max_right 1 this
  · unfold importPhase2
    refine le_trans (ensureAssertImport_count_assert _ _) ?_
    rw [ensureNodeTestImport_count_assert]
    have : countAssertImports (removeLegacyImports2 prog) ≤
        countAssertImports prog :=
      countP_of_filter_le _ _ prog
    exact max_le_max_right 1 this
  · unfold sinonImportPhase countImportsFrom
    by_cases hs : prog.any (isImportFrom "sinon")
    · rw [if_pos hs]
      have hfil : (prog.filter fun s => !isImportFrom "sinon" s).countP
            (isImportFrom "node:test") ≤ prog.countP (isImportFrom "node:test") :=
        countP_of_filter_le _ _ prog
      by_cases h1 : (prog.filter fun s => !isImportFrom "sinon" s).any
          (isImportFrom "node:test")
      · rw [if_pos h1, List.countP_map]
        have heq : (prog.filter fun s => !isImportFrom "sinon" s).countP
              (isImportFrom "node:test" ∘ addMockSpecifier) =
            (prog.filter fun s => !isImportFrom "sinon" s).countP
              (isImportFrom "node:test") := by
          apply List.countP_congr
          intro s _
          simp only [Function.comp_apply]
          rw [addMockSpecifier_isImportFrom]
        rw [heq]
        exact le_trans hfil (le_max_left _ _)
      · rw [if_neg h1, List.countP_cons, countP_eq_zero_of_not_any h1]
        simp [isImportFrom]
    · rw [if_neg hs]
      exact le_max_left _ _

/-- Witness for `import_normalizer_no_duplicates` on a file that already
imports from `node:test` and `node:assert`: no phase pushes any count above
one. -/
theorem import_normalizer_no_duplicates_witness :
    countImportsFrom "node:test"
        (importPhase2 false
          [.importDecl "node:test" ["describe", "it"],
           .importDecl "node:assert" ["assert"]]) ≤
      max (countImportsFrom "node:test"
        [.importDecl "node:test" ["describe", "it"],
         .importDecl "node:assert" ["assert"]]) 1 :=
  (import_normalizer_no_duplicates false
    [.importDecl "node:test" ["describe", "it"],
     .importDecl "node:assert" ["assert"]]).1

/-- Statements of an `afterEach` callback body as the restore-replacement
pass sees them: a `<recv>.restore()` call statement, a `mock.reset()` call
statement, or anything else. -/
inductive BStmt where
  | restoreCall (recv : String)
  | resetCall
  | otherB (tag : Nat)
deriving DecidableEq, Repr

/-- Whether a statement is the `mock.reset()` expression statement the
`existingReset` scan looks for (migrate-sinon-to-node-test.ts,
lines 487-493). -/
def isReset : BStmt → Bool
  | .resetCall => true
  | _ => false

/-- Whether a statement is a restore call the pass processes: the find
filter requires the receiver to be `sandBox` or `sinon`
(migrate-sinon-to-node-test.ts, lines 455-469). -/
def isSbRestore : BStmt → Bool
  | .restoreCall r => r = "sandBox" || r = "sinon"
  | _ => false

/-- The restore-replacement pass inside one `afterEach` body
(migrate-sinon-to-node-test.ts, lines 470-508): the matched restore calls
are processed in source order against the LIVE body; each time, if the
current body already contains a `mock.reset()` statement the restore call is
removed, otherwise it is replaced by `mock.reset()`.  `pre` is the already
processed part of the body. -/
def goRestore : List BStmt → List BStmt → List BStmt
  | pre, [] => pre
  | pre, s :: rest =>
      if isSbRestore s then
        if (pre ++ s :: rest).any isReset then goRestore pre rest
        else goRestore (pre ++ [.resetCall]) rest
      else goRestore (pre ++ [s]) rest

/-- The restore-replacement pass applied to a whole `afterEach` body. -/
def restorePass (body : List BStmt) : List BStmt :=
  goRestore [] body

/-- Counterexample to claim C10: an `afterEach` body that already contains
two `mock.reset()` statements ahead of its `sandBox.restore()` call ends the
transform with TWO `mock.reset()` calls, not exactly one, and its first (and
only) restore call is removed rather than replaced. -/
theorem restore_pass_keeps_preexisting_resets :
    restorePass [.resetCall, .resetCall, .restoreCall "sandBox"] =
        [.resetCall, .resetCall] ∧
      (restorePass [.resetCall, .resetCall, .restoreCall "sandBox"]).countP
          isReset = 2 := by
  constructor <;> decide

theorem goRestore_of_reset_present (rest : List BStmt) :
    ∀ pre : List BStmt, (pre ++ rest).any isReset = true →
      goRestore pre rest = pre ++ rest.filter (fun s => !isSbRestore s) := by
  induction rest with
  | nil =>
      intro pre _
      simp [goRestore]
  | cons s rest ih =>
      intro pre h
      by_cases hsb : isSbRestore s = true
      · have hres : isReset s = false := by
          cases s <;> simp_all [isSbRestore, isReset]
        have h' : (pre ++ rest).any isReset = true := by
          rcases List.any_eq_true.mp h with ⟨a, ha, hpa⟩
          apply List.any_eq_true.mpr
          refine ⟨a, ?_, hpa⟩
          rcases List.mem_append.mp ha with h1 | h2
          · exact List.mem_append.mpr (Or.inl h1)
          · rcases List.mem_cons.mp h2 with rfl | h3
            · rw [hpa] at hres
              exact absurd hres (by simp)
            · exact List.mem_append.mpr (Or.inr h3)
        rw [goRestore, if_pos hsb, if_pos h, ih pre h']
        simp [List.filter_cons, hsb]
      · have hsb' : isSbRestore s = false := by simpa using hsb
        have h' : ((pre ++ [s]) ++ rest).any isReset = true := by
          rw [List.append_assoc]
          simpa using h
        rw [goRestore, if_neg (by simp [hsb']), ih (pre ++ [s]) h']
        simp [List.filter_cons, hsb', List.append_assoc]

theorem goRestore_clean (rest : List BStmt) :
    ∀ pre : List BStmt, pre.any isReset = false → pre.any isSbRestore = false →
      rest.countP isReset = 0 → rest.any isSbRestore = true →
      (goRestore pre rest).countP isReset = 1 ∧
        (goRestore pre rest).any isSbRestore = false := by
  induction rest with
  | nil =>
      intro pre _ _ _ hsb
      simp at hsb
  | cons s rest ih =>
      intro pre hpre hpresb hcnt hsb
      have hres : isReset s = false := by
        have := List.countP_eq_zero.mp hcnt s (List.mem_cons_self s rest)
        simpa using this
      have hcnt' : rest.countP isReset = 0 := by
        rw [List.countP_cons, hres] at hcnt
        simpa using hcnt
      by_cases hs : isSbRestore s = true
      · have hcond : (pre ++ s :: rest).any isReset = false := by
          simp only [List.any_append, List.any_cons, Bool.or_eq_false_iff]
          refine ⟨hpre, hres, ?_⟩
          have := List.countP_eq_zero.mp hcnt'
          rw [List.any_eq_false]
          intro a ha
          simpa using this a ha
        rw [goRestore, if_pos hs, if_neg (by simp [hcond])]
        have hpre' : ((pre ++ [BStmt.resetCall]) ++ rest).any isReset = true := by
          simp [isReset]
        rw [goRestore_of_reset_present rest (pre ++ [BStmt.resetCall]) hpre']
        constructor
        · rw [List.countP_append, List.countP_append]
          have h1 : pre.countP isReset = 0 := countP_eq_zero_of_not_any (by simp [hpre])
          have h2 : (rest.filter fun s => !isSbRestore s).countP isReset = 0 := by
            have := countP_of_filter_le isReset (fun s => !isSbRestore s) rest
            omega
          simp [h1, h2, isReset]
        · simp only [List.any_append, Bool.or_eq_false_iff]
          refine ⟨⟨hpresb, by simp [isSbRestore]⟩, ?_⟩
          rw [List.any_eq_false]
          intro a ha
          have := List.of_mem_filter ha
          simpa using this
      · have hs' : isSbRestore s = false := by simpa using hs
        rw [goRestore, if_neg (by simp [hs'])]
        apply ih (pre ++ [s])
        · simp [List.any_append, hpre, hres]
        · simp [List.any_append, hpresb, hs']
        · exact hcnt'
        · rw [List.any_cons, hs'] at hsb
          simpa using hsb

/-- Claim C10 as amended: in an `afterEach` body with NO pre-existing
`mock.reset()` statement and at least one `sandBox`/`sinon` restore call,
the transform leaves exactly one `mock.reset()` call and no such restore
calls (the first restore is replaced, the rest are removed); in a body that
already contains a `mock.reset()` statement, every `sandBox`/`sinon` restore
call is simply removed and the rest of the body is kept unchanged. -/
theorem restore_pass_amended (body : List BStmt) :
    ((body.countP isReset = 0 ∧ body.any isSbRestore = true) →
        (restorePass body).countP isReset = 1 ∧
          (restorePass body).any isSbRestore = false) ∧
      (body.any isReset = true →
        restorePass body = body.filter (fun s => !isSbRestore s)) := by
  constructor
  · rintro ⟨h1, h2⟩
    exact goRestore_clean body [] (by simp) (by simp) h1 h2
  · intro h
    exact goRestore_of_reset_present body [] (by simpa using h)

/-- Witness for `restore_pass_amended`: a clean body with two restore calls
ends with exactly one `mock.reset()`, and a body with a pre-existing
`mock.reset()` simply loses its restore call. -/
theorem restore_pass_amended_witness :
    ((restorePass [.restoreCall "sandBox", .otherB 0, .restoreCall "sinon"]).countP
          isReset = 1 ∧
        (restorePass [.restoreCall "sandBox", .otherB 0,
          .restoreCall "sinon"]).any isSbRestore = false) ∧
      restorePass [.resetCall, .restoreCall "sandBox"] = [.resetCall] :=
  ⟨(restore_pass_amended
      [.restoreCall "sandBox", .otherB 0, .restoreCall "sinon"]).1
      ⟨by decide, by decide⟩,
   by
     have h := (restore_pass_amended [.resetCall, .restoreCall "sandBox"]).2
       (by decide)
     simpa using h⟩
